import Mathlib

/-! A-RYTH-MATIK hardware abstraction library (libmodulove)

Shallow embedding of `digital_input.h`, `digital_output.h`, `encoder.h`,
`arythmatik_peripherials.h` and `arythmatik.cpp`.

Conventions of the embedding:

* C++ objects are records; a member function takes the object (and, when it
  touches the hardware, the board) and returns the new object (and board).
* `uint8_t` / `byte` / `int` values are natural numbers.  The library performs
  no arithmetic on them (they are only stored and compared), so no wrap-around
  can occur and no reduction modulo `2^8` is needed.
* A constructor with an empty body and fields without initialisers leaves the
  fields indeterminate; the object that exists before `Init` is therefore an
  argument of `Init`, not a constant.
* `digitalRead(pin)` is an input of the program: the value it returned is an
  argument (`sample` for a single detector, a function `rd` from pins to
  levels for the whole runtime).
-/

namespace modulove

/-! ## Arduino core primitives -/

/-- Arduino logic level `LOW`. -/
def LOW : Nat := 0

/-- Arduino logic level `HIGH`. -/
def HIGH : Nat := 1

/-- Pin direction passed to `pinMode`. -/
inductive PinMode where
  | INPUT
  | OUTPUT
deriving DecidableEq, Repr

/-- Modelled from the spec: the upstream hardware ("write digital level L to pin P",
instantaneous and always successful).  `level p` is the level currently driven on
pin `p`; `modes` and `writes` record the `pinMode` and `digitalWrite` calls made so
far, oldest first. -/
structure Board where
  level : Nat → Nat
  modes : List (Nat × PinMode)
  writes : List (Nat × Nat)

/-- Modelled from the spec: a board on which every pin is low and nothing has been
configured or written yet. -/
def Board.reset : Board :=
  { level := fun _ => LOW, modes := [], writes := [] }

/-- Modelled from the spec: the Arduino primitive `pinMode(pin, mode)`; it records
the direction and does not change any level. -/
def pinMode (b : Board) (pin : Nat) (m : PinMode) : Board :=
  { b with modes := b.modes ++ [(pin, m)] }

/-- Modelled from the spec: the Arduino primitive `digitalWrite(pin, val)`
("write digital level L to pin P"): `LOW` drives the pin low, any other value
drives it high. -/
def digitalWrite (b : Board) (pin val : Nat) : Board :=
  { b with
    level := fun p => if p = pin then (if val = LOW then LOW else HIGH) else b.level p
    writes := b.writes ++ [(pin, val)] }

/-! ## digital_input.h -/

/-- Enum constants for clk input rising/falling state (`DigitalInput::InputState`). -/
inductive DigitalInput.InputState where
  | STATE_UNCHANGED
  | STATE_RISING
  | STATE_FALLING
deriving DecidableEq, Repr

/-- The private fields of `class DigitalInput`. -/
structure DigitalInput where
  cv_pin_ : Nat
  read_ : Nat
  old_read_ : Nat
  state_ : DigitalInput.InputState
  on_ : Bool
deriving DecidableEq, Repr

namespace DigitalInput

open InputState

/-- Source: `void Init(uint8_t cv_pin)`: `pinMode(cv_pin, INPUT); cv_pin_ = cv_pin;`.
The argument `d` is the constructed object; `DigitalInput() {}` assigns no field. -/
def Init (d : DigitalInput) (b : Board) (cv_pin : Nat) : DigitalInput × Board :=
  ({ d with cv_pin_ := cv_pin }, pinMode b cv_pin PinMode.INPUT)

/-- Source: `void Process()`; `sample` is the value returned by `digitalRead(cv_pin_)`. -/
def Process (d : DigitalInput) (sample : Nat) : DigitalInput :=
  let d1 := { d with old_read_ := d.read_ }
  let d2 := { d1 with read_ := sample }
  let d3 := { d2 with state_ := STATE_UNCHANGED }
  if d3.old_read_ = 0 ∧ d3.read_ = 1 then
    { d3 with state_ := STATE_RISING, on_ := true }
  else if d3.old_read_ = 1 ∧ d3.read_ = 0 then
    { d3 with state_ := STATE_FALLING, on_ := false }
  else
    d3

/-- Source: `inline InputState State() { return state_; }`. -/
def State (d : DigitalInput) : InputState := d.state_

/-- Source: `inline bool On() { return on_; }`. -/
def On (d : DigitalInput) : Bool := d.on_

/-- Consecutive `Process()` calls, one per sample, oldest sample first. -/
def ProcessAll (d : DigitalInput) (samples : List Nat) : DigitalInput :=
  samples.foldl Process d

/-- The held flag agrees with the stored sample, and the stored sample is a logic level. -/
def Consistent (d : DigitalInput) : Prop :=
  d.read_ ≤ 1 ∧ d.on_ = decide (d.read_ = 1)

instance (d : DigitalInput) : Decidable d.Consistent := by
  unfold Consistent
  infer_instance

end DigitalInput

/-! ## digital_output.h -/

/-- The private fields of `class DigitalOutput`. -/
structure DigitalOutput where
  cv_pin_ : Nat
  led_pin_ : Nat
  on_ : Bool
deriving DecidableEq, Repr

namespace DigitalOutput

/-- The preprocessor symbol `LED_PIN_DEFINED` as seen by `#ifdef LED_PIN_DEFINED` in
`update` (line 74).  The directive `#define LED_PIN_DEFINED` stands at line 39 of the
same header, inside the body of the two-argument `Init`.  Preprocessing is textual and
top to bottom, a directive inside a function body is not tied to that function being
called, so at line 74 the symbol is defined in every translation unit. -/
def LED_PIN_DEFINED : Bool := true

/-- Source: `void Init(uint8_t cv_pin)`: `pinMode(cv_pin, OUTPUT); cv_pin_ = cv_pin;`.
The class declares no constructor and no field initialiser, so the object `o` that
exists before the call is an argument. -/
def Init (o : DigitalOutput) (b : Board) (cv_pin : Nat) : DigitalOutput × Board :=
  ({ o with cv_pin_ := cv_pin }, pinMode b cv_pin PinMode.OUTPUT)

/-- Source: `void Init(uint8_t cv_pin, uint8_t led_pin)` (the C++ overload):
`pinMode(led_pin, OUTPUT); led_pin_ = led_pin; Init(cv_pin);`. -/
def InitLed (o : DigitalOutput) (b : Board) (cv_pin led_pin : Nat) : DigitalOutput × Board :=
  Init { o with led_pin_ := led_pin } (pinMode b led_pin PinMode.OUTPUT) cv_pin

/-- The private `void update(uint8_t state)`:
`digitalWrite(cv_pin_, state);` then, under `#ifdef LED_PIN_DEFINED`,
`digitalWrite(led_pin_, state);` then `on_ = state == HIGH;`. -/
def update (o : DigitalOutput) (b : Board) (state : Nat) : DigitalOutput × Board :=
  let b1 := digitalWrite b o.cv_pin_ state
  let b2 := if LED_PIN_DEFINED then digitalWrite b1 o.led_pin_ state else b1
  ({ o with on_ := decide (state = HIGH) }, b2)

/-- Source: `inline void High() { update(HIGH); }`. -/
def High (o : DigitalOutput) (b : Board) : DigitalOutput × Board :=
  update o b HIGH

/-- Source: `inline void Low() { update(LOW); }`. -/
def Low (o : DigitalOutput) (b : Board) : DigitalOutput × Board :=
  update o b LOW

/-- Source: `inline void Update(uint8_t state)`:
`if (state == HIGH) High(); if (state == LOW) Low();`. -/
def Update (o : DigitalOutput) (b : Board) (state : Nat) : DigitalOutput × Board :=
  let r1 := if state = HIGH then High o b else (o, b)
  if state = LOW then Low r1.1 r1.2 else r1

/-- Source: `inline bool On() { return on_; }`. -/
def On (o : DigitalOutput) : Bool := o.on_

/-- One call made on an output by the application. -/
inductive Call where
  | Update (state : Nat)
  | High
  | Low
deriving DecidableEq, Repr

/-- Perform one call. -/
def call (ob : DigitalOutput × Board) : Call → DigitalOutput × Board
  | Call.Update state => Update ob.1 ob.2 state
  | Call.High => High ob.1 ob.2
  | Call.Low => Low ob.1 ob.2

/-- Perform a sequence of calls, oldest first. -/
def callAll (ob : DigitalOutput × Board) (cs : List Call) : DigitalOutput × Board :=
  cs.foldl call ob

end DigitalOutput

/-! ## arythmatik_peripherials.h -/

namespace arythmatik

def ENCODER_PIN1 : Nat := 2
def ENCODER_PIN2 : Nat := 3
def ENCODER_SW_PIN : Nat := 12

def CLK_PIN : Nat := 11
def RST_PIN : Nat := 13
def CLK_PIN_ROTATED : Nat := 13
def RST_PIN_ROTATED : Nat := 11

def CLOCK_LED : Nat := 4
def OUT_CH1 : Nat := 5
def OUT_CH2 : Nat := 6
def OUT_CH3 : Nat := 7
def OUT_CH4 : Nat := 8
def OUT_CH5 : Nat := 9
def OUT_CH6 : Nat := 10
def LED_CH1 : Nat := 14
def LED_CH2 : Nat := 15
def LED_CH3 : Nat := 16
def LED_CH4 : Nat := 0
def LED_CH5 : Nat := 1
def LED_CH6 : Nat := 17

def OUT_CH1_ROTATED : Nat := 8
def OUT_CH2_ROTATED : Nat := 9
def OUT_CH3_ROTATED : Nat := 10
def OUT_CH4_ROTATED : Nat := 1
def OUT_CH5_ROTATED : Nat := 6
def OUT_CH6_ROTATED : Nat := 7
def LED_CH1_ROTATED : Nat := 0
def LED_CH2_ROTATED : Nat := 1
def LED_CH3_ROTATED : Nat := 17
def LED_CH4_ROTATED : Nat := 14
def LED_CH5_ROTATED : Nat := 15
def LED_CH6_ROTATED : Nat := 16

def OUTPUT_COUNT : Nat := 6

end arythmatik

/-! ## encoder.h -/

/-- Enum constants for encoder rotation increment/decrement state. -/
inductive Encoder.Direction where
  | DIRECTION_UNCHANGED
  | DIRECTION_INCREMENT
  | DIRECTION_DECREMENT
deriving DecidableEq, Repr

/-- Enum for type of switch press. -/
inductive Encoder.PressType where
  | PRESS_NONE
  | PRESS_SHORT
  | PRESS_LONG
deriving DecidableEq, Repr

/-- The pins handed to the `SimpleRotary` constructor (external library). -/
structure SimpleRotary where
  pinA : Nat
  pinB : Nat
  pinS : Nat
deriving DecidableEq, Repr

/-- What the switch did between the previous `pushType` call and this one: nothing
that completes a press (not pressed, or still held down), or a release after a hold
of `held` time-units. -/
inductive SimpleRotary.ButtonEvent where
  | noRelease
  | released (held : Nat)
deriving DecidableEq, Repr

/-- Modelled from the spec: the press-duration primitive `SimpleRotary::pushType(duration)`
of the external encoder library, whose code is absent.  It returns 0 ("none") when no
release occurred in this call, "a press is only classified at the moment of release";
1 ("short") when the "release occurred after holding less than the configured
long-press threshold"; 2 ("long") when the "release occurred at or after the
threshold". -/
def SimpleRotary.pushType (_r : SimpleRotary) (ev : SimpleRotary.ButtonEvent)
    (duration : Nat) : Nat :=
  match ev with
  | SimpleRotary.ButtonEvent.noRelease => 0
  | SimpleRotary.ButtonEvent.released held => if held < duration then 1 else 2

/-- The private fields of `class Encoder`. -/
structure Encoder where
  encoder_ : SimpleRotary
  reversed_ : Nat
deriving DecidableEq, Repr

namespace Encoder

open Direction PressType

/-- Source: `Encoder() : encoder_(ENCODER_PIN1, ENCODER_PIN2, ENCODER_SW_PIN) {}` together with
the field initialiser `byte reversed_ = 0;`. -/
def new : Encoder :=
  { encoder_ := ⟨arythmatik.ENCODER_PIN1, arythmatik.ENCODER_PIN2, arythmatik.ENCODER_SW_PIN⟩
    reversed_ := 0 }

/-- Source: `void setDirection(byte direction) { reversed_ = direction == 1; }`. -/
def setDirection (e : Encoder) (direction : Nat) : Encoder :=
  { e with reversed_ := if direction = 1 then 1 else 0 }

/-- Source: `Direction rotate()`; `raw` is the value returned by `encoder_.rotate()`. -/
def rotate (_e : Encoder) (raw : Nat) : Direction :=
  match raw with
  | 1 => DIRECTION_INCREMENT
  | 2 => DIRECTION_DECREMENT
  | _ => DIRECTION_UNCHANGED

/-- Source: `Direction rotate_reversed()`; `raw` is the value returned by `encoder_.rotate()`. -/
def rotate_reversed (_e : Encoder) (raw : Nat) : Direction :=
  match raw with
  | 1 => DIRECTION_DECREMENT
  | 2 => DIRECTION_INCREMENT
  | _ => DIRECTION_UNCHANGED

/-- Source: `Direction Rotate() { return (reversed_) ? rotate_reversed() : rotate(); }`;
a `byte` is true when it is not zero. -/
def Rotate (e : Encoder) (raw : Nat) : Direction :=
  if e.reversed_ ≠ 0 then rotate_reversed e raw else rotate e raw

/-- Source: `static const int LONG_PRESS_DURATION_MS = 1000;`. -/
def LONG_PRESS_DURATION_MS : Nat := 1000

/-- Source: `byte _press() { return encoder_.pushType(LONG_PRESS_DURATION_MS); }`; `push` is
this call of the external `encoder_.pushType`: `push duration` is the byte it returns
when given `duration`. -/
def _press (_e : Encoder) (push : Nat → Nat) : Nat :=
  push LONG_PRESS_DURATION_MS

/-- Source: `PressType Pressed()`, a `switch` on `_press()`. -/
def Pressed (e : Encoder) (push : Nat → Nat) : PressType :=
  match e._press push with
  | 1 => PRESS_SHORT
  | 2 => PRESS_LONG
  | _ => PRESS_NONE

/-- Source: `bool ShortPressed() { return Pressed() == PRESS_SHORT; }`. -/
def ShortPressed (e : Encoder) (push : Nat → Nat) : Bool :=
  decide (e.Pressed push = PRESS_SHORT)

/-- Source: `bool LongPressed() { return Pressed() == PRESS_LONG; }`. -/
def LongPressed (e : Encoder) (push : Nat → Nat) : Bool :=
  decide (e.Pressed push = PRESS_LONG)

/-- A `pushType` call that returns the raw byte `p` whatever the duration given. -/
def rawPush (p : Nat) : Nat → Nat :=
  fun _ => p

/-- The statements `ShortPressed(); LongPressed();` of one cycle.  Each of them calls
`Pressed()`, hence `_press()`, hence `encoder_.pushType` once, so the first receives
the first raw sample of `raws` and the second receives the second one (a missing
sample reads 0, no press). -/
def ShortPressed_then_LongPressed (e : Encoder) (raws : List Nat) : Bool × Bool :=
  (e.ShortPressed (rawPush (raws.getD 0 0)), e.LongPressed (rawPush (raws.getD 1 0)))

end Encoder

/-! ## arythmatik_config.h, arythmatik.h, arythmatik.cpp -/

/-- Configuration settings for the A-RYTH-MATIK module (`arythmatik::Config`). -/
structure arythmatik.Config where
  RotatePanel : Bool
  ReverseEncoder : Bool
deriving DecidableEq, Repr

/-- The part of the external `Adafruit_SSD1306` display object that `InitDisplay`
decides: the rotation passed to `setRotation`. -/
structure Display where
  rotation : Nat
deriving DecidableEq, Repr

/-- The members of `class Arythmatik`; `outputs` is the array
`DigitalOutput outputs[arythmatik::OUTPUT_COUNT]`. -/
structure Arythmatik where
  config : arythmatik.Config
  display : Display
  encoder : Encoder
  outputs : Fin 6 → DigitalOutput
  clk : DigitalInput
  rst : DigitalInput

namespace Arythmatik

open arythmatik

/-- The runtime object as it stands when `Init()` is called.  The constructor
`Arythmatik() : display(SCREEN_WIDTH, SCREEN_HEIGHT, &Wire, -1) {}` has constructed
`display` and `encoder` (`Encoder()`); `outputs`, `clk` and `rst` are
default-constructed, which assigns none of their fields, so their contents are
arguments; `config` is whatever the sketch stored in it. -/
def construct (config : Config) (outputs : Fin 6 → DigitalOutput) (clk rst : DigitalInput) :
    Arythmatik :=
  { config := config, display := ⟨0⟩, encoder := Encoder.new, outputs := outputs,
    clk := clk, rst := rst }

/-- The statement `clk.Init(pin);`. -/
def clk_Init (ab : Arythmatik × Board) (pin : Nat) : Arythmatik × Board :=
  let r := ab.1.clk.Init ab.2 pin
  ({ ab.1 with clk := r.1 }, r.2)

/-- The statement `rst.Init(pin);`. -/
def rst_Init (ab : Arythmatik × Board) (pin : Nat) : Arythmatik × Board :=
  let r := ab.1.rst.Init ab.2 pin
  ({ ab.1 with rst := r.1 }, r.2)

/-- The statement `outputs[i].Init(cv_pin, led_pin);`. -/
def outputs_Init (ab : Arythmatik × Board) (i : Fin 6) (cv_pin led_pin : Nat) :
    Arythmatik × Board :=
  let r := (ab.1.outputs i).InitLed ab.2 cv_pin led_pin
  ({ ab.1 with outputs := Function.update ab.1.outputs i r.1 }, r.2)

/-- Source: `void Arythmatik::InitInputs()`. -/
def InitInputs (ab : Arythmatik × Board) : Arythmatik × Board :=
  let ab1 :=
    if ab.1.config.RotatePanel then
      rst_Init (clk_Init ab CLK_PIN_ROTATED) RST_PIN_ROTATED
    else
      rst_Init (clk_Init ab CLK_PIN) RST_PIN
  if ab1.1.config.ReverseEncoder then
    ({ ab1.1 with encoder := ab1.1.encoder.setDirection 1 }, ab1.2)
  else
    ab1

/-- Source: `void Arythmatik::InitOutputs()`. -/
def InitOutputs (ab : Arythmatik × Board) : Arythmatik × Board :=
  if ab.1.config.RotatePanel then
    let ab0 := outputs_Init ab 0 OUT_CH1_ROTATED LED_CH1_ROTATED
    let ab1 := outputs_Init ab0 1 OUT_CH2_ROTATED LED_CH2_ROTATED
    let ab2 := outputs_Init ab1 2 OUT_CH3_ROTATED LED_CH3_ROTATED
    let ab3 := outputs_Init ab2 3 OUT_CH4_ROTATED LED_CH4_ROTATED
    let ab4 := outputs_Init ab3 4 OUT_CH5_ROTATED LED_CH5_ROTATED
    outputs_Init ab4 5 OUT_CH6_ROTATED LED_CH6_ROTATED
  else
    let ab0 := outputs_Init ab 0 OUT_CH1 LED_CH1
    let ab1 := outputs_Init ab0 1 OUT_CH2 LED_CH2
    let ab2 := outputs_Init ab1 2 OUT_CH3 LED_CH3
    let ab3 := outputs_Init ab2 3 OUT_CH4 LED_CH4
    let ab4 := outputs_Init ab3 4 OUT_CH5 LED_CH5
    outputs_Init ab4 5 OUT_CH6 LED_CH6

/-- Source: `void Arythmatik::InitDisplay()`; of the calls on the external display object
only the final `setRotation` is kept: 2 for the rotated panel, 0 otherwise. -/
def InitDisplay (ab : Arythmatik × Board) : Arythmatik × Board :=
  if ab.1.config.RotatePanel then
    ({ ab.1 with display := ⟨2⟩ }, ab.2)
  else
    ({ ab.1 with display := ⟨0⟩ }, ab.2)

/-- Source: `void Arythmatik::Init()`:
`InitInputs(); InitOutputs(); InitDisplay(); pinMode(CLOCK_LED, OUTPUT);`. -/
def Init (a : Arythmatik) (b : Board) : Arythmatik × Board :=
  let ab := InitDisplay (InitOutputs (InitInputs (a, b)))
  (ab.1, pinMode ab.2 CLOCK_LED PinMode.OUTPUT)

/-- Source: `void Arythmatik::ProcessInputs()`; `rd pin` is the value that
`digitalRead(pin)` returns during this call. -/
def ProcessInputs (rd : Nat → Nat) (ab : Arythmatik × Board) : Arythmatik × Board :=
  let a1 := { ab.1 with clk := ab.1.clk.Process (rd ab.1.clk.cv_pin_) }
  let a2 := { a1 with rst := a1.rst.Process (rd a1.rst.cv_pin_) }
  if a2.clk.State = DigitalInput.InputState.STATE_RISING then
    (a2, digitalWrite ab.2 CLOCK_LED HIGH)
  else if a2.clk.State = DigitalInput.InputState.STATE_FALLING then
    (a2, digitalWrite ab.2 CLOCK_LED LOW)
  else
    (a2, ab.2)

/-- Consecutive `ProcessInputs()` calls, one per element of `rds`, oldest first. -/
def ProcessInputsAll (ab : Arythmatik × Board) (rds : List (Nat → Nat)) : Arythmatik × Board :=
  rds.foldl (fun s rd => ProcessInputs rd s) ab

/-- The roles to which the runtime binds a pin. -/
inductive Role where
  | clock
  | reset
  | indicator
  | out (i : Fin 6)
  | led (i : Fin 6)
  | encoder (k : Fin 3)
deriving DecidableEq, Repr

/-- The pin a runtime object holds for a role: the detectors and outputs store theirs,
the encoder pins are those given to `SimpleRotary`, and the indicator is the pin
`CLOCK_LED` that `Init()` configures and `ProcessInputs()` writes. -/
def pinOf (a : Arythmatik) : Role → Nat
  | Role.clock => a.clk.cv_pin_
  | Role.reset => a.rst.cv_pin_
  | Role.indicator => CLOCK_LED
  | Role.out i => (a.outputs i).cv_pin_
  | Role.led i => (a.outputs i).led_pin_
  | Role.encoder 0 => a.encoder.encoder_.pinA
  | Role.encoder 1 => a.encoder.encoder_.pinB
  | Role.encoder 2 => a.encoder.encoder_.pinS

/-- The clock, reset and indicator roles and the cv and LED role of each of the six
outputs. -/
def panelRoles : List Role :=
  [Role.clock, Role.reset, Role.indicator,
   Role.out 0, Role.out 1, Role.out 2, Role.out 3, Role.out 4, Role.out 5,
   Role.led 0, Role.led 1, Role.led 2, Role.led 3, Role.led 4, Role.led 5]

/-- Every role: the panel roles and the three encoder pins. -/
def allRoles : List Role :=
  panelRoles ++ [Role.encoder 0, Role.encoder 1, Role.encoder 2]

end Arythmatik

/-! ## Edge detection (`DigitalInput`) -/

namespace DigitalInput

open InputState

theorem read_Process (d : DigitalInput) (sample : Nat) : (d.Process sample).read_ = sample := by
  unfold Process
  dsimp only
  split_ifs <;> rfl

theorem cv_pin_Process (d : DigitalInput) (sample : Nat) :
    (d.Process sample).cv_pin_ = d.cv_pin_ := by
  unfold Process
  dsimp only
  split_ifs <;> rfl

theorem ProcessAll_append (d : DigitalInput) (xs ys : List Nat) :
    d.ProcessAll (xs ++ ys) = (d.ProcessAll xs).ProcessAll ys := by
  simp [ProcessAll, List.foldl_append]

theorem ProcessAll_snoc (d : DigitalInput) (xs : List Nat) (x : Nat) :
    d.ProcessAll (xs ++ [x]) = (d.ProcessAll xs).Process x := by
  simp [ProcessAll, List.foldl_append]

/-- The derived state after one `Process()` call as a function of the stored sample
and the sample just read. -/
theorem State_Process (d : DigitalInput) (sample : Nat) :
    ((d.Process sample).State = STATE_RISING ↔ d.read_ = 0 ∧ sample = 1) ∧
    ((d.Process sample).State = STATE_FALLING ↔ d.read_ = 1 ∧ sample = 0) ∧
    ((d.Process sample).State = STATE_UNCHANGED ↔
      ¬ (d.read_ = 0 ∧ sample = 1) ∧ ¬ (d.read_ = 1 ∧ sample = 0)) := by
  unfold Process State
  by_cases h1 : d.read_ = 0 ∧ sample = 1
  · have h2 : ¬ (d.read_ = 1 ∧ sample = 0) := by omega
    simp [h1]
  · by_cases h2 : d.read_ = 1 ∧ sample = 0
    · simp [h2]
    · simp [h1, h2]

/-- C1. For every detector, every sequence of samples already processed and every two
further samples `prev`, `cur` read by consecutive `Process()` calls, `State()` after
the call that read `cur` is `STATE_RISING` iff `prev = 0` and `cur = 1`, is
`STATE_FALLING` iff `prev = 1` and `cur = 0`, and is `STATE_UNCHANGED` in every other
case. -/
theorem State_after_Process (d : DigitalInput) (earlier : List Nat) (prev cur : Nat) :
    ((d.ProcessAll (earlier ++ [prev, cur])).State = STATE_RISING ↔ prev = 0 ∧ cur = 1) ∧
    ((d.ProcessAll (earlier ++ [prev, cur])).State = STATE_FALLING ↔ prev = 1 ∧ cur = 0) ∧
    ((d.ProcessAll (earlier ++ [prev, cur])).State = STATE_UNCHANGED ↔
      ¬ (prev = 0 ∧ cur = 1) ∧ ¬ (prev = 1 ∧ cur = 0)) := by
  have h : d.ProcessAll (earlier ++ [prev, cur]) = ((d.ProcessAll earlier).Process prev).Process cur := by
    simp [ProcessAll, List.foldl_append]
  rw [h]
  have := State_Process ((d.ProcessAll earlier).Process prev) cur
  rwa [read_Process] at this

theorem Consistent_Process (d : DigitalInput) (sample : Nat) (hd : d.Consistent)
    (hs : sample ≤ 1) : (d.Process sample).Consistent := by
  obtain ⟨hr, ho⟩ := hd
  unfold Consistent Process
  by_cases h1 : d.read_ = 0 ∧ sample = 1
  · simp [h1]
  · by_cases h2 : d.read_ = 1 ∧ sample = 0
    · simp [h2]
    · have h3 : d.read_ = sample := by omega
      simp only [h1, h2, if_false]
      refine ⟨hs, ?_⟩
      rw [ho, h3]

theorem Consistent_ProcessAll (samples : List Nat) :
    ∀ d : DigitalInput, d.Consistent → (∀ x ∈ samples, x ≤ 1) → (d.ProcessAll samples).Consistent := by
  induction samples with
  | nil => intro d hd _; exact hd
  | cons x xs ih =>
    intro d hd hs
    have hx : x ≤ 1 := hs x (List.mem_cons_self x xs)
    have hxs : ∀ y ∈ xs, y ≤ 1 := fun y hy => hs y (List.mem_cons_of_mem x hy)
    exact ih (d.Process x) (Consistent_Process d x hd hx) hxs

/-- From a detector whose stored sample is 0 and whose held flag is false, a state that
`Init()` does not establish, and for every non-empty sequence `earlier ++ [cur]` of
boolean samples, `On()` after the `Process()` call that read `cur` is true iff `cur`
is 1. -/
theorem On_after_Process (d : DigitalInput) (earlier : List Nat) (cur : Nat)
    (hread : d.read_ = 0) (hon : d.on_ = false)
    (hbool : ∀ x ∈ earlier ++ [cur], x = 0 ∨ x = 1) :
    (d.ProcessAll (earlier ++ [cur])).On = decide (cur = 1) := by
  have hd : d.Consistent := by
    unfold Consistent
    rw [hread, hon]
    simp
  have hle : ∀ x ∈ earlier ++ [cur], x ≤ 1 := fun x hx => by
    rcases hbool x hx with h | h <;> omega
  have hc := Consistent_ProcessAll (earlier ++ [cur]) d hd hle
  have hr : (d.ProcessAll (earlier ++ [cur])).read_ = cur := by
    rw [ProcessAll_snoc, read_Process]
  unfold On
  rw [hc.2, hr]

/-- Samples 0, 1, 1, 0, 1 on a detector bound to pin 11 with stored sample 0 and held
flag false. -/
theorem On_after_Process_witness :
    ((DigitalInput.mk 11 0 0 STATE_UNCHANGED false).ProcessAll ([0, 1, 1, 0] ++ [1])).On
      = decide (1 = 1) :=
  On_after_Process (DigitalInput.mk 11 0 0 STATE_UNCHANGED false) [0, 1, 1, 0] 1 rfl rfl
    (by decide)

/-- C3. `Init(pin)` leaves the stored sample and the held flag as they were in the
constructed object, and on an object whose storage held sample 1 and flag true the
first `Process()` call after `Init(11)` with the pin reading low reports
`STATE_FALLING`. -/
theorem first_Process_after_Init :
    (∀ (d : DigitalInput) (b : Board) (pin : Nat),
      (d.Init b pin).1.read_ = d.read_ ∧ (d.Init b pin).1.on_ = d.on_) ∧
    (((DigitalInput.mk 0 1 0 STATE_UNCHANGED true).Init Board.reset 11).1.Process 0).State
      = STATE_FALLING := by
  refine ⟨fun d b pin => ⟨rfl, rfl⟩, ?_⟩
  decide

/-- C2. After `Init(pin)`, a `Process()` call that reads the value found in the never
assigned field `read_` reports no edge and leaves `On()` at the value found in the
never assigned field `on_`, whatever the sample is.  On an object whose storage held
sample 1 and flag false, after `Init(11)` the first `Process()` call with the pin
reading high stores sample 1 and reports `STATE_UNCHANGED`, and `On()` is false; on
an object whose storage held sample 0 and flag true, with the pin reading low `On()`
is true. -/
theorem On_after_Init_follows_storage :
    (∀ (d : DigitalInput) (b : Board) (pin : Nat),
      ((d.Init b pin).1.Process d.read_).State = STATE_UNCHANGED ∧
      ((d.Init b pin).1.Process d.read_).On = d.on_) ∧
    (((DigitalInput.mk 0 1 0 STATE_UNCHANGED false).Init Board.reset 11).1.Process 1).read_
      = 1 ∧
    (((DigitalInput.mk 0 1 0 STATE_UNCHANGED false).Init Board.reset 11).1.Process 1).State
      = STATE_UNCHANGED ∧
    (((DigitalInput.mk 0 1 0 STATE_UNCHANGED false).Init Board.reset 11).1.Process 1).On
      = false ∧
    (((DigitalInput.mk 0 0 0 STATE_UNCHANGED true).Init Board.reset 11).1.Process 0).On
      = true := by
  refine ⟨fun d b pin => ?_, ?_, ?_, ?_, ?_⟩
  · have h1 : ¬ (d.read_ = 0 ∧ d.read_ = 1) := by omega
    have h2 : ¬ (d.read_ = 1 ∧ d.read_ = 0) := by omega
    simp [Init, Process, State, On, h1, h2]
  · decide
  · decide
  · decide
  · decide

end DigitalInput

/-! ## Mirrored outputs (`DigitalOutput`) -/

namespace DigitalOutput

theorem pins_update (o : DigitalOutput) (b : Board) (state : Nat) :
    (update o b state).1.cv_pin_ = o.cv_pin_ ∧ (update o b state).1.led_pin_ = o.led_pin_ :=
  ⟨rfl, rfl⟩

theorem pins_Update (o : DigitalOutput) (b : Board) (state : Nat) :
    (Update o b state).1.cv_pin_ = o.cv_pin_ ∧ (Update o b state).1.led_pin_ = o.led_pin_ := by
  unfold Update High Low
  split_ifs <;> exact ⟨rfl, rfl⟩

theorem pins_call (ob : DigitalOutput × Board) (c : Call) :
    (call ob c).1.cv_pin_ = ob.1.cv_pin_ ∧ (call ob c).1.led_pin_ = ob.1.led_pin_ := by
  cases c with
  | Update state => exact pins_Update ob.1 ob.2 state
  | High => exact ⟨rfl, rfl⟩
  | Low => exact ⟨rfl, rfl⟩

theorem pins_callAll (cs : List Call) :
    ∀ ob : DigitalOutput × Board,
      (callAll ob cs).1.cv_pin_ = ob.1.cv_pin_ ∧ (callAll ob cs).1.led_pin_ = ob.1.led_pin_ := by
  induction cs with
  | nil => intro ob; exact ⟨rfl, rfl⟩
  | cons c cs ih =>
    intro ob
    have h1 := ih (call ob c)
    have h2 := pins_call ob c
    exact ⟨h1.1.trans h2.1, h1.2.trans h2.2⟩

/-- After `Update(level)` with a logic level, the pins stored in the object hold that
level and `On()` reports it. -/
theorem Update_levels (o : DigitalOutput) (b : Board) (level : Nat)
    (hlevel : level = LOW ∨ level = HIGH) :
    (Update o b level).2.level o.cv_pin_ = level ∧
    (Update o b level).2.level o.led_pin_ = level ∧
    (Update o b level).1.On = decide (level = HIGH) := by
  rcases hlevel with h | h <;> subst h <;>
    simp [Update, High, Low, update, digitalWrite, LED_PIN_DEFINED, On, HIGH, LOW]

/-- C4. For an output initialised with `Init(cv_pin, led_pin)`, after any sequence of
calls followed by `Update(level)` with `level` one of `LOW`, `HIGH`, the cv pin and the
LED pin both hold `level`, and `On()` is true iff `level` is `HIGH`. -/
theorem Update_mirrors (o : DigitalOutput) (b : Board) (cv_pin led_pin : Nat)
    (cs : List Call) (level : Nat) (hlevel : level = LOW ∨ level = HIGH) :
    (Update (callAll (o.InitLed b cv_pin led_pin) cs).1
        (callAll (o.InitLed b cv_pin led_pin) cs).2 level).2.level cv_pin = level ∧
    (Update (callAll (o.InitLed b cv_pin led_pin) cs).1
        (callAll (o.InitLed b cv_pin led_pin) cs).2 level).2.level led_pin = level ∧
    (Update (callAll (o.InitLed b cv_pin led_pin) cs).1
        (callAll (o.InitLed b cv_pin led_pin) cs).2 level).1.On = decide (level = HIGH) := by
  have hp := pins_callAll cs (o.InitLed b cv_pin led_pin)
  have hcv : (callAll (o.InitLed b cv_pin led_pin) cs).1.cv_pin_ = cv_pin := hp.1
  have hled : (callAll (o.InitLed b cv_pin led_pin) cs).1.led_pin_ = led_pin := hp.2
  have h := Update_levels (callAll (o.InitLed b cv_pin led_pin) cs).1
    (callAll (o.InitLed b cv_pin led_pin) cs).2 level hlevel
  rw [hcv, hled] at h
  exact h

/-- Witness for C4: output 1 of the default layout (cv pin 5, LED pin 14), driven low
and then updated to `HIGH`. -/
theorem Update_mirrors_witness :
    (Update (callAll ((DigitalOutput.mk 0 0 false).InitLed Board.reset 5 14) [Call.Low]).1
        (callAll ((DigitalOutput.mk 0 0 false).InitLed Board.reset 5 14) [Call.Low]).2
        HIGH).2.level 5 = HIGH ∧
    (Update (callAll ((DigitalOutput.mk 0 0 false).InitLed Board.reset 5 14) [Call.Low]).1
        (callAll ((DigitalOutput.mk 0 0 false).InitLed Board.reset 5 14) [Call.Low]).2
        HIGH).2.level 14 = HIGH ∧
    (Update (callAll ((DigitalOutput.mk 0 0 false).InitLed Board.reset 5 14) [Call.Low]).1
        (callAll ((DigitalOutput.mk 0 0 false).InitLed Board.reset 5 14) [Call.Low]).2
        HIGH).1.On = decide (HIGH = HIGH) :=
  Update_mirrors (DigitalOutput.mk 0 0 false) Board.reset 5 14 [Call.Low] HIGH (Or.inr rfl)

/-- C5. On an output initialised with the one-argument `Init(cv_pin)`, `High()` issues
two `digitalWrite` calls, the second to the pin number found in the never assigned
field `led_pin_`; for an object whose storage is all zero and `Init(5)`, that is a
write of `HIGH` to pin 0, whose level changes from low to high, and `Update(HIGH)`
does the same. -/
theorem High_after_single_Init_writes_led_pin :
    (∀ (o : DigitalOutput) (b : Board) (cv_pin : Nat),
      (High (o.Init b cv_pin).1 (o.Init b cv_pin).2).2.writes
        = b.writes ++ [(cv_pin, HIGH), (o.led_pin_, HIGH)]) ∧
    (High ((DigitalOutput.mk 0 0 false).Init Board.reset 5).1
        ((DigitalOutput.mk 0 0 false).Init Board.reset 5).2).2.writes = [(5, 1), (0, 1)] ∧
    Board.reset.level 0 = LOW ∧
    (High ((DigitalOutput.mk 0 0 false).Init Board.reset 5).1
        ((DigitalOutput.mk 0 0 false).Init Board.reset 5).2).2.level 0 = HIGH ∧
    (callAll ((DigitalOutput.mk 0 0 false).Init Board.reset 5) [Call.Update HIGH]).2.level 0
      = HIGH := by
  refine ⟨fun o b cv_pin => ?_, ?_, rfl, ?_, ?_⟩
  · simp [High, update, Init, digitalWrite, pinMode, LED_PIN_DEFINED]
  · decide
  · decide
  · decide

end DigitalOutput

/-! ## Pin layouts bound by `Arythmatik::Init()` -/

namespace Arythmatik

open arythmatik

/-- The pins held for all roles, in the order of `allRoles`, after `Init()` with
`config.RotatePanel = true`. -/
theorem pins_Init_rotated (rev : Bool) (outputs : Fin 6 → DigitalOutput)
    (clk rst : DigitalInput) (b : Board) :
    allRoles.map (pinOf (Init (construct ⟨true, rev⟩ outputs clk rst) b).1)
      = [13, 11, 4, 8, 9, 10, 1, 6, 7, 0, 1, 17, 14, 15, 16, 2, 3, 12] := by
  cases rev <;>
    simp [allRoles, panelRoles, pinOf, Init, InitDisplay, InitOutputs, InitInputs,
      outputs_Init, clk_Init, rst_Init, DigitalInput.Init, DigitalOutput.InitLed,
      DigitalOutput.Init, construct, Function.update, Encoder.new,
      Encoder.setDirection] <;> decide

/-- The pins held for all roles, in the order of `allRoles`, after `Init()` with
`config.RotatePanel = false`. -/
theorem pins_Init_default (rev : Bool) (outputs : Fin 6 → DigitalOutput)
    (clk rst : DigitalInput) (b : Board) :
    allRoles.map (pinOf (Init (construct ⟨false, rev⟩ outputs clk rst) b).1)
      = [11, 13, 4, 5, 6, 7, 8, 9, 10, 14, 15, 16, 0, 1, 17, 2, 3, 12] := by
  cases rev <;>
    simp [allRoles, panelRoles, pinOf, Init, InitDisplay, InitOutputs, InitInputs,
      outputs_Init, clk_Init, rst_Init, DigitalInput.Init, DigitalOutput.InitLed,
      DigitalOutput.Init, construct, Function.update, Encoder.new,
      Encoder.setDirection] <;> decide

/-- The pin held for one role after `Init()` with `config.RotatePanel = true`. -/
theorem pinOf_Init_rotated (rev : Bool) (outputs : Fin 6 → DigitalOutput)
    (clk rst : DigitalInput) (b : Board) (r : Role) :
    pinOf (Init (construct ⟨true, rev⟩ outputs clk rst) b).1 r =
      match r with
      | Role.clock => 13
      | Role.reset => 11
      | Role.indicator => 4
      | Role.out i => [8, 9, 10, 1, 6, 7].get i
      | Role.led i => [0, 1, 17, 14, 15, 16].get i
      | Role.encoder k => [2, 3, 12].get k := by
  cases r with
  | clock => cases rev <;> rfl
  | reset => cases rev <;> rfl
  | indicator => rfl
  | out i =>
    fin_cases i <;> cases rev <;>
      simp [pinOf, Init, InitDisplay, InitOutputs, InitInputs, outputs_Init, clk_Init,
        rst_Init, DigitalInput.Init, DigitalOutput.InitLed, DigitalOutput.Init, construct,
        Function.update] <;> decide
  | led i =>
    fin_cases i <;> cases rev <;>
      simp [pinOf, Init, InitDisplay, InitOutputs, InitInputs, outputs_Init, clk_Init,
        rst_Init, DigitalInput.Init, DigitalOutput.InitLed, DigitalOutput.Init, construct,
        Function.update] <;> decide
  | encoder k => fin_cases k <;> cases rev <;> rfl

/-- The pin held for one role after `Init()` with `config.RotatePanel = false`. -/
theorem pinOf_Init_default (rev : Bool) (outputs : Fin 6 → DigitalOutput)
    (clk rst : DigitalInput) (b : Board) (r : Role) :
    pinOf (Init (construct ⟨false, rev⟩ outputs clk rst) b).1 r =
      match r with
      | Role.clock => 11
      | Role.reset => 13
      | Role.indicator => 4
      | Role.out i => [5, 6, 7, 8, 9, 10].get i
      | Role.led i => [14, 15, 16, 0, 1, 17].get i
      | Role.encoder k => [2, 3, 12].get k := by
  cases r with
  | clock => cases rev <;> rfl
  | reset => cases rev <;> rfl
  | indicator => rfl
  | out i =>
    fin_cases i <;> cases rev <;>
      simp [pinOf, Init, InitDisplay, InitOutputs, InitInputs, outputs_Init, clk_Init,
        rst_Init, DigitalInput.Init, DigitalOutput.InitLed, DigitalOutput.Init, construct,
        Function.update] <;> decide
  | led i =>
    fin_cases i <;> cases rev <;>
      simp [pinOf, Init, InitDisplay, InitOutputs, InitInputs, outputs_Init, clk_Init,
        rst_Init, DigitalInput.Init, DigitalOutput.InitLed, DigitalOutput.Init, construct,
        Function.update] <;> decide
  | encoder k => fin_cases k <;> cases rev <;> rfl

/-- C6. After `Init()` with `config.RotatePanel = true`, the cv pin of `outputs[3]`
(`OUT_CH4_ROTATED`) and the LED pin of `outputs[1]` (`LED_CH2_ROTATED`) are both pin 1,
so the pins of the rotated layout are not pairwise distinct; the pins of the default
layout are pairwise distinct. -/
theorem rotated_layout_shares_pin (rev : Bool) (outputs : Fin 6 → DigitalOutput)
    (clk rst : DigitalInput) (b : Board) :
    pinOf (Init (construct ⟨true, rev⟩ outputs clk rst) b).1 (Role.out 3) = 1 ∧
    pinOf (Init (construct ⟨true, rev⟩ outputs clk rst) b).1 (Role.led 1) = 1 ∧
    ¬ (allRoles.map (pinOf (Init (construct ⟨true, rev⟩ outputs clk rst) b).1)).Nodup ∧
    (allRoles.map (pinOf (Init (construct ⟨false, rev⟩ outputs clk rst) b).1)).Nodup := by
  refine ⟨?_, ?_, ?_, ?_⟩
  · rw [pinOf_Init_rotated]; rfl
  · rw [pinOf_Init_rotated]; rfl
  · rw [pins_Init_rotated]; decide
  · rw [pins_Init_default]; decide

/-- Counterexample for C7. Pin 4 (`CLOCK_LED`) is bound both by `Init()` with
`config.RotatePanel = true` and by `Init()` with `config.RotatePanel = false`, so the
two sets of pins bound to the clock, reset, output and indicator roles are not
disjoint. -/
theorem panel_pin_sets_not_disjoint :
    ¬ List.Disjoint
      (panelRoles.map (pinOf (Init (construct ⟨true, false⟩
        (fun _ => DigitalOutput.mk 0 0 false)
        (DigitalInput.mk 0 0 0 DigitalInput.InputState.STATE_UNCHANGED false)
        (DigitalInput.mk 0 0 0 DigitalInput.InputState.STATE_UNCHANGED false))
        Board.reset).1))
      (panelRoles.map (pinOf (Init (construct ⟨false, false⟩
        (fun _ => DigitalOutput.mk 0 0 false)
        (DigitalInput.mk 0 0 0 DigitalInput.InputState.STATE_UNCHANGED false)
        (DigitalInput.mk 0 0 0 DigitalInput.InputState.STATE_UNCHANGED false))
        Board.reset).1)) := by
  intro h
  refine h (a := 4) ?_ ?_
  · exact List.mem_map.mpr ⟨Role.indicator, by decide, rfl⟩
  · exact List.mem_map.mpr ⟨Role.indicator, by decide, rfl⟩

/-- C7 (amended). Whatever the constructed objects and boards, `Init()` with
`config.RotatePanel = true` binds the clock role, the reset role and the cv role and
the LED role of each of the six outputs to a pin different from the one that `Init()`
with `config.RotatePanel = false` binds to the same role, and both bind the indicator
role to the same pin `CLOCK_LED`. -/
theorem roles_rebound_by_rotation (rev1 rev2 : Bool) (o1 o2 : Fin 6 → DigitalOutput)
    (clk1 rst1 clk2 rst2 : DigitalInput) (b1 b2 : Board) :
    pinOf (Init (construct ⟨true, rev1⟩ o1 clk1 rst1) b1).1 Role.clock
      ≠ pinOf (Init (construct ⟨false, rev2⟩ o2 clk2 rst2) b2).1 Role.clock ∧
    pinOf (Init (construct ⟨true, rev1⟩ o1 clk1 rst1) b1).1 Role.reset
      ≠ pinOf (Init (construct ⟨false, rev2⟩ o2 clk2 rst2) b2).1 Role.reset ∧
    (∀ i : Fin 6, pinOf (Init (construct ⟨true, rev1⟩ o1 clk1 rst1) b1).1 (Role.out i)
      ≠ pinOf (Init (construct ⟨false, rev2⟩ o2 clk2 rst2) b2).1 (Role.out i)) ∧
    (∀ i : Fin 6, pinOf (Init (construct ⟨true, rev1⟩ o1 clk1 rst1) b1).1 (Role.led i)
      ≠ pinOf (Init (construct ⟨false, rev2⟩ o2 clk2 rst2) b2).1 (Role.led i)) ∧
    pinOf (Init (construct ⟨true, rev1⟩ o1 clk1 rst1) b1).1 Role.indicator = CLOCK_LED ∧
    pinOf (Init (construct ⟨false, rev2⟩ o2 clk2 rst2) b2).1 Role.indicator = CLOCK_LED := by
  refine ⟨?_, ?_, ?_, ?_, rfl, rfl⟩
  · rw [pinOf_Init_rotated, pinOf_Init_default]; decide
  · rw [pinOf_Init_rotated, pinOf_Init_default]; decide
  · intro i
    rw [pinOf_Init_rotated, pinOf_Init_default]
    fin_cases i <;> decide
  · intro i
    rw [pinOf_Init_rotated, pinOf_Init_default]
    fin_cases i <;> decide

/-! ## `Arythmatik::ProcessInputs()` -/

open DigitalInput.InputState in
/-- The members and the board after one `ProcessInputs()` call. -/
theorem ProcessInputs_effect_aux (rd : Nat → Nat) (a : Arythmatik) (b : Board) :
    (ProcessInputs rd (a, b)).1.clk = a.clk.Process (rd a.clk.cv_pin_) ∧
    (ProcessInputs rd (a, b)).1.rst = a.rst.Process (rd a.rst.cv_pin_) ∧
    (ProcessInputs rd (a, b)).1.encoder = a.encoder ∧
    (ProcessInputs rd (a, b)).1.outputs = a.outputs ∧
    (ProcessInputs rd (a, b)).2.writes = b.writes ++
      (match (a.clk.Process (rd a.clk.cv_pin_)).State with
        | STATE_RISING => [(CLOCK_LED, HIGH)]
        | STATE_FALLING => [(CLOCK_LED, LOW)]
        | STATE_UNCHANGED => []) ∧
    (ProcessInputs rd (a, b)).2.level CLOCK_LED =
      (match (a.clk.Process (rd a.clk.cv_pin_)).State with
        | STATE_RISING => HIGH
        | STATE_FALLING => LOW
        | STATE_UNCHANGED => b.level CLOCK_LED) := by
  unfold ProcessInputs
  dsimp only
  cases h : (a.clk.Process (rd a.clk.cv_pin_)).State <;>
    simp [h, digitalWrite, HIGH, LOW]

open DigitalInput.InputState in
/-- C8. One `ProcessInputs()` call replaces the clock detector by the result of one
`Process()` call on it and the reset detector by the result of one `Process()` call on
it, each reading its own pin, and leaves the other members alone; it then issues
exactly one write `digitalWrite(CLOCK_LED, HIGH)` if the clock's `State()` is
`STATE_RISING`, exactly one write `digitalWrite(CLOCK_LED, LOW)` if it is
`STATE_FALLING`, and no write if it is `STATE_UNCHANGED`, so that the level of
`CLOCK_LED` is high, low, or what it was before the call, respectively. -/
theorem ProcessInputs_effect (rd : Nat → Nat) (a : Arythmatik) (b : Board) :
    (ProcessInputs rd (a, b)).1.clk = a.clk.Process (rd a.clk.cv_pin_) ∧
    (ProcessInputs rd (a, b)).1.rst = a.rst.Process (rd a.rst.cv_pin_) ∧
    (ProcessInputs rd (a, b)).1.encoder = a.encoder ∧
    (ProcessInputs rd (a, b)).1.outputs = a.outputs ∧
    (ProcessInputs rd (a, b)).2.writes = b.writes ++
      (match (a.clk.Process (rd a.clk.cv_pin_)).State with
        | STATE_RISING => [(CLOCK_LED, HIGH)]
        | STATE_FALLING => [(CLOCK_LED, LOW)]
        | STATE_UNCHANGED => []) ∧
    (ProcessInputs rd (a, b)).2.level CLOCK_LED =
      (match (a.clk.Process (rd a.clk.cv_pin_)).State with
        | STATE_RISING => HIGH
        | STATE_FALLING => LOW
        | STATE_UNCHANGED => b.level CLOCK_LED) := by
  unfold ProcessInputs
  dsimp only
  cases h : (a.clk.Process (rd a.clk.cv_pin_)).State <;>
    simp [h, digitalWrite, HIGH, LOW]

/-- One `ProcessInputs()` call keeps the indicator equal to the clock sample, provided
that before the call the clock detector is consistent and the indicator shows its
stored sample, and that the clock pin reads a logic level. -/
theorem indicator_mirrors_clock_step (rd : Nat → Nat) (a : Arythmatik) (b : Board)
    (hc : a.clk.Consistent) (hl : b.level CLOCK_LED = a.clk.read_)
    (hs : rd a.clk.cv_pin_ ≤ 1) :
    (ProcessInputs rd (a, b)).1.clk.Consistent ∧
    (ProcessInputs rd (a, b)).2.level CLOCK_LED = (ProcessInputs rd (a, b)).1.clk.read_ ∧
    (ProcessInputs rd (a, b)).2.level CLOCK_LED = rd a.clk.cv_pin_ ∧
    (ProcessInputs rd (a, b)).1.clk.On = decide (rd a.clk.cv_pin_ = 1) := by
  obtain ⟨hclk, -, -, -, -, hlev⟩ := ProcessInputs_effect_aux rd a b
  have hcons := DigitalInput.Consistent_Process a.clk (rd a.clk.cv_pin_) hc hs
  have hread := DigitalInput.read_Process a.clk (rd a.clk.cv_pin_)
  have hst := DigitalInput.State_Process a.clk (rd a.clk.cv_pin_)
  have hlevel : (ProcessInputs rd (a, b)).2.level CLOCK_LED = rd a.clk.cv_pin_ := by
    rw [hlev]
    cases h : (a.clk.Process (rd a.clk.cv_pin_)).State with
    | STATE_RISING => simp only []; have := hst.1.mp h; simp [HIGH, this.2]
    | STATE_FALLING => simp only []; have := hst.2.1.mp h; simp [LOW, this.2]
    | STATE_UNCHANGED =>
      simp only []
      have := hst.2.2.mp h
      have hr := hc.1
      rw [hl]
      omega
  rw [hclk]
  refine ⟨hcons, ?_, hlevel, ?_⟩
  · rw [hlevel, hread]
  · unfold DigitalInput.On
    rw [hcons.2, hread]

theorem ProcessInputsAll_snoc (ab : Arythmatik × Board) (rds : List (Nat → Nat))
    (rd : Nat → Nat) :
    ProcessInputsAll ab (rds ++ [rd]) = ProcessInputs rd (ProcessInputsAll ab rds) := by
  simp [ProcessInputsAll, List.foldl_append]

/-- The pin of the clock detector is not changed by `ProcessInputs()` calls. -/
theorem clk_pin_ProcessInputsAll (rds : List (Nat → Nat)) :
    ∀ ab : Arythmatik × Board, (ProcessInputsAll ab rds).1.clk.cv_pin_ = ab.1.clk.cv_pin_ := by
  induction rds with
  | nil => intro ab; rfl
  | cons rd rds ih =>
    intro ab
    have h1 := ih (ProcessInputs rd ab)
    have h2 := (ProcessInputs_effect_aux rd ab.1 ab.2).1
    have h3 : (ProcessInputs rd ab).1.clk.cv_pin_ = ab.1.clk.cv_pin_ := by
      have : (ProcessInputs rd ab).1.clk = ab.1.clk.Process (rd ab.1.clk.cv_pin_) := h2
      rw [this, DigitalInput.cv_pin_Process]
    exact h1.trans h3

open DigitalInput.InputState in
/-- The clock pin reading low, high, low in three consecutive `ProcessInputs()` calls,
from any runtime object and board: after the second call `State()` is `STATE_RISING`,
the indicator is high and `On()` is true; after the third call `State()` is
`STATE_FALLING`, the indicator is low and `On()` is false. -/
theorem clock_low_high_low (a : Arythmatik) (b : Board) (rd1 rd2 rd3 : Nat → Nat)
    (h1 : rd1 a.clk.cv_pin_ = LOW) (h2 : rd2 a.clk.cv_pin_ = HIGH)
    (h3 : rd3 a.clk.cv_pin_ = LOW) :
    (ProcessInputsAll (a, b) [rd1, rd2]).1.clk.State = STATE_RISING ∧
    (ProcessInputsAll (a, b) [rd1, rd2]).2.level CLOCK_LED = HIGH ∧
    (ProcessInputsAll (a, b) [rd1, rd2]).1.clk.On = true ∧
    (ProcessInputsAll (a, b) [rd1, rd2, rd3]).1.clk.State = STATE_FALLING ∧
    (ProcessInputsAll (a, b) [rd1, rd2, rd3]).2.level CLOCK_LED = LOW ∧
    (ProcessInputsAll (a, b) [rd1, rd2, rd3]).1.clk.On = false := by
  have hA2 : ProcessInputsAll (a, b) [rd1, rd2]
      = ProcessInputs rd2 (ProcessInputs rd1 (a, b)) := by
    simp only [ProcessInputsAll, List.foldl]
  have hA3 : ProcessInputsAll (a, b) [rd1, rd2, rd3]
      = ProcessInputs rd3 (ProcessInputs rd2 (ProcessInputs rd1 (a, b))) := by
    simp only [ProcessInputsAll, List.foldl]
  rw [hA2, hA3]
  have e1 := ProcessInputs_effect_aux rd1 a b
  rcases hab1 : ProcessInputs rd1 (a, b) with ⟨a1, b1⟩
  rw [hab1] at e1
  have c1 : a1.clk = a.clk.Process (rd1 a.clk.cv_pin_) := e1.1
  have p1 : a1.clk.cv_pin_ = a.clk.cv_pin_ := by rw [c1, DigitalInput.cv_pin_Process]
  have r1 : a1.clk.read_ = 0 := by rw [c1, DigitalInput.read_Process, h1]; rfl
  have e2 := ProcessInputs_effect_aux rd2 a1 b1
  rcases hab2 : ProcessInputs rd2 (a1, b1) with ⟨a2, b2⟩
  rw [hab2, p1, h2] at e2
  have c2 : a2.clk = a1.clk.Process HIGH := e2.1
  have s2 : (a1.clk.Process HIGH).State = STATE_RISING :=
    (DigitalInput.State_Process a1.clk HIGH).1.mpr ⟨r1, rfl⟩
  have o2 : (a1.clk.Process HIGH).On = true := by
    simp [DigitalInput.Process, DigitalInput.On, r1, HIGH]
  have l2 : b2.level CLOCK_LED = HIGH := by
    have := e2.2.2.2.2.2
    rw [s2] at this
    exact this
  have p2 : a2.clk.cv_pin_ = a.clk.cv_pin_ := by rw [c2, DigitalInput.cv_pin_Process, p1]
  have r2 : a2.clk.read_ = 1 := by rw [c2, DigitalInput.read_Process]; rfl
  have e3 := ProcessInputs_effect_aux rd3 a2 b2
  rcases hab3 : ProcessInputs rd3 (a2, b2) with ⟨a3, b3⟩
  rw [hab3, p2, h3] at e3
  have c3 : a3.clk = a2.clk.Process LOW := e3.1
  have s3 : (a2.clk.Process LOW).State = STATE_FALLING :=
    (DigitalInput.State_Process a2.clk LOW).2.1.mpr ⟨r2, rfl⟩
  have o3 : (a2.clk.Process LOW).On = false := by
    simp [DigitalInput.Process, DigitalInput.On, r2, LOW]
  have l3 : b3.level CLOCK_LED = LOW := by
    have := e3.2.2.2.2.2
    rw [s3] at this
    exact this
  refine ⟨?_, l2, ?_, ?_, l3, ?_⟩
  · show a2.clk.State = _
    rw [c2]; exact s2
  · show a2.clk.On = _
    rw [c2]; exact o2
  · show a3.clk.State = _
    rw [c3]; exact s3
  · show a3.clk.On = _
    rw [c3]; exact o3

/-- The mirror invariant is kept by any sequence of `ProcessInputs()` calls in which
the clock pin reads logic levels. -/
theorem mirror_invariant_ProcessInputsAll (pin : Nat) (rds : List (Nat → Nat)) :
    ∀ ab : Arythmatik × Board,
      ab.1.clk.Consistent → ab.2.level CLOCK_LED = ab.1.clk.read_ → ab.1.clk.cv_pin_ = pin →
      (∀ rd ∈ rds, rd pin ≤ 1) →
      (ProcessInputsAll ab rds).1.clk.Consistent ∧
      (ProcessInputsAll ab rds).2.level CLOCK_LED = (ProcessInputsAll ab rds).1.clk.read_ := by
  induction rds with
  | nil => intro ab hc hl _ _; exact ⟨hc, hl⟩
  | cons rd rds ih =>
    intro ab hc hl hp hs
    rcases ab with ⟨a, b⟩
    have hrd : rd a.clk.cv_pin_ ≤ 1 := by
      have := hs rd (List.mem_cons_self rd rds)
      rwa [← hp] at this
    have hstep := indicator_mirrors_clock_step rd a b hc hl hrd
    have hpin : (ProcessInputs rd (a, b)).1.clk.cv_pin_ = pin := by
      rw [(ProcessInputs_effect_aux rd a b).1, DigitalInput.cv_pin_Process]
      exact hp
    exact ih (ProcessInputs rd (a, b)) hstep.1 hstep.2.1 hpin
      (fun rd2 h2 => hs rd2 (List.mem_cons_of_mem rd h2))

/-- From a runtime object whose clock detector holds stored sample 0 and held flag
false, on a board whose `CLOCK_LED` pin is low, after every `ProcessInputs()` call of a
sequence in which the clock pin reads logic levels the indicator level equals the
clock sample read in that call, and `clk.On()` is true iff that sample is 1. -/
theorem indicator_mirrors_clock (a : Arythmatik) (b : Board) (rds : List (Nat → Nat))
    (rd : Nat → Nat) (hread : a.clk.read_ = 0) (hon : a.clk.on_ = false)
    (hled : b.level CLOCK_LED = LOW)
    (hs : ∀ f ∈ rds ++ [rd], f a.clk.cv_pin_ ≤ 1) :
    (ProcessInputsAll (a, b) (rds ++ [rd])).2.level CLOCK_LED = rd a.clk.cv_pin_ ∧
    (ProcessInputsAll (a, b) (rds ++ [rd])).1.clk.On = decide (rd a.clk.cv_pin_ = 1) := by
  have hc : a.clk.Consistent := by
    unfold DigitalInput.Consistent
    rw [hread, hon]
    simp
  have hl : b.level CLOCK_LED = a.clk.read_ := by rw [hled, hread]; rfl
  have hinv := mirror_invariant_ProcessInputsAll a.clk.cv_pin_ rds (a, b) hc hl rfl
    (fun f hf => hs f (List.mem_append_left [rd] hf))
  have hpin := clk_pin_ProcessInputsAll rds (a, b)
  rw [ProcessInputsAll_snoc]
  have hrd : rd (ProcessInputsAll (a, b) rds).1.clk.cv_pin_ ≤ 1 := by
    rw [hpin]
    exact hs rd (List.mem_append_right rds (List.mem_singleton_self rd))
  have hstep := indicator_mirrors_clock_step rd (ProcessInputsAll (a, b) rds).1
    (ProcessInputsAll (a, b) rds).2 hinv.1 hinv.2 hrd
  rw [hpin] at hstep
  exact ⟨hstep.2.2.1, hstep.2.2.2⟩

open DigitalInput.InputState in
/-- C9. `Init()` assigns neither the stored sample nor the held flag of the clock
detector and writes no level to `CLOCK_LED`.  On a runtime object whose clock detector
storage held sample 1 and flag false, on a board with every pin low, after `Init()`
and one `ProcessInputs()` call in which the clock pin reads high, `State()` is
`STATE_UNCHANGED`, the indicator is low and `On()` is false, although the sample read
in that call is high. -/
theorem indicator_after_Init_not_mirroring :
    (∀ (a : Arythmatik) (b : Board),
      (Init a b).1.clk.read_ = a.clk.read_ ∧ (Init a b).1.clk.on_ = a.clk.on_ ∧
      (Init a b).2.level CLOCK_LED = b.level CLOCK_LED) ∧
    (ProcessInputs (fun _ => HIGH) (Init (construct ⟨false, false⟩
        (fun _ => DigitalOutput.mk 0 0 false)
        (DigitalInput.mk 0 1 0 STATE_UNCHANGED false)
        (DigitalInput.mk 0 0 0 STATE_UNCHANGED false)) Board.reset)).1.clk.State
      = STATE_UNCHANGED ∧
    (ProcessInputs (fun _ => HIGH) (Init (construct ⟨false, false⟩
        (fun _ => DigitalOutput.mk 0 0 false)
        (DigitalInput.mk 0 1 0 STATE_UNCHANGED false)
        (DigitalInput.mk 0 0 0 STATE_UNCHANGED false)) Board.reset)).2.level CLOCK_LED
      = LOW ∧
    (ProcessInputs (fun _ => HIGH) (Init (construct ⟨false, false⟩
        (fun _ => DigitalOutput.mk 0 0 false)
        (DigitalInput.mk 0 1 0 STATE_UNCHANGED false)
        (DigitalInput.mk 0 0 0 STATE_UNCHANGED false)) Board.reset)).1.clk.On
      = false := by
  refine ⟨fun a b => ?_, ?_, ?_, ?_⟩
  · cases h : a.config.RotatePanel <;> cases h2 : a.config.ReverseEncoder <;>
      simp [Init, InitDisplay, InitOutputs, InitInputs, outputs_Init, clk_Init, rst_Init,
        DigitalInput.Init, DigitalOutput.InitLed, DigitalOutput.Init, pinMode, h, h2]
  · rfl
  · rfl
  · rfl

end Arythmatik

/-! ## Rotation classification (`Encoder`) -/

namespace Encoder

open Direction

/-- C10. For every encoder object and every raw value `r` returned by the sensor:
when the reversal flag is false (`reversed_` is 0), `Rotate()` returns
`DIRECTION_INCREMENT` for `r = 1` and `DIRECTION_DECREMENT` for `r = 2`; when it is
true (`reversed_` is not 0), `Rotate()` returns `DIRECTION_DECREMENT` for `r = 1` and
`DIRECTION_INCREMENT` for `r = 2`; for every other `r` it returns
`DIRECTION_UNCHANGED` whatever the flag. -/
theorem Rotate_classifies (e : Encoder) (r : Nat) :
    (e.reversed_ = 0 → r = 1 → e.Rotate r = DIRECTION_INCREMENT) ∧
    (e.reversed_ = 0 → r = 2 → e.Rotate r = DIRECTION_DECREMENT) ∧
    (e.reversed_ ≠ 0 → r = 1 → e.Rotate r = DIRECTION_DECREMENT) ∧
    (e.reversed_ ≠ 0 → r = 2 → e.Rotate r = DIRECTION_INCREMENT) ∧
    (r ≠ 1 → r ≠ 2 → e.Rotate r = DIRECTION_UNCHANGED) := by
  refine ⟨?_, ?_, ?_, ?_, ?_⟩
  · intro h hr; subst hr; simp [Rotate, rotate, h]
  · intro h hr; subst hr; simp [Rotate, rotate, h]
  · intro h hr; subst hr; simp [Rotate, rotate_reversed, h]
  · intro h hr; subst hr; simp [Rotate, rotate_reversed, h]
  · intro h1 h2
    unfold Rotate rotate rotate_reversed
    split_ifs <;> split <;> first | rfl | contradiction

/-- Witness for C10: the constructed encoder (flag false) and the encoder after
`setDirection(1)` (flag true), at raw values 1, 2 and 0. -/
theorem Rotate_classifies_witness :
    Encoder.new.Rotate 1 = DIRECTION_INCREMENT ∧
    Encoder.new.Rotate 2 = DIRECTION_DECREMENT ∧
    (Encoder.new.setDirection 1).Rotate 1 = DIRECTION_DECREMENT ∧
    (Encoder.new.setDirection 1).Rotate 2 = DIRECTION_INCREMENT ∧
    Encoder.new.Rotate 0 = DIRECTION_UNCHANGED ∧
    (Encoder.new.setDirection 1).Rotate 0 = DIRECTION_UNCHANGED :=
  ⟨(Rotate_classifies Encoder.new 1).1 rfl rfl,
   (Rotate_classifies Encoder.new 2).2.1 rfl rfl,
   (Rotate_classifies (Encoder.new.setDirection 1) 1).2.2.1 (by decide) rfl,
   (Rotate_classifies (Encoder.new.setDirection 1) 2).2.2.2.1 (by decide) rfl,
   (Rotate_classifies Encoder.new 0).2.2.2.2 (by decide) (by decide),
   (Rotate_classifies (Encoder.new.setDirection 1) 0).2.2.2.2 (by decide) (by decide)⟩

end Encoder

/-! ## Edges over time (`DigitalInput`) -/

namespace DigitalInput

open InputState

/-- The held flag after one `Process()` call, by the state it reports. -/
theorem On_Process (d : DigitalInput) (sample : Nat) :
    (d.Process sample).On =
      (match (d.Process sample).State with
        | STATE_RISING => true
        | STATE_FALLING => false
        | STATE_UNCHANGED => d.On) := by
  unfold Process On State
  dsimp only
  split_ifs <;> rfl

/-- C18. For every detector state and every sample value `v`, when two consecutive
`Process()` calls both read `v`, `State()` after the second call is `STATE_UNCHANGED`
and `On()` after the second call is what it was after the first call. -/
theorem repeated_sample_reports_unchanged (d : DigitalInput) (v : Nat) :
    ((d.Process v).Process v).State = STATE_UNCHANGED ∧
    ((d.Process v).Process v).On = (d.Process v).On := by
  have hst := State_Process (d.Process v) v
  rw [read_Process] at hst
  have hu : ((d.Process v).Process v).State = STATE_UNCHANGED :=
    hst.2.2.mpr ⟨by omega, by omega⟩
  refine ⟨hu, ?_⟩
  rw [On_Process (d.Process v) v, hu]

/-- From a detector whose stored sample is 1, a later call can report `STATE_RISING`
only after some call in between has reported `STATE_FALLING`. -/
theorem falling_before_next_rising (mid : List Nat) :
    ∀ (d : DigitalInput) (b : Nat), d.read_ = 1 → (∀ x ∈ mid, x = 0 ∨ x = 1) →
      (d.ProcessAll (mid ++ [b])).State = STATE_RISING →
      ∃ mid1 c mid2, mid = mid1 ++ c :: mid2 ∧
        (d.ProcessAll (mid1 ++ [c])).State = STATE_FALLING := by
  induction mid with
  | nil =>
    intro d b hd _ hr
    have h := (State_Process d b).1.mp hr
    omega
  | cons c rest ih =>
    intro d b hd hbool hr
    rcases hbool c (List.mem_cons_self c rest) with hc | hc
    · refine ⟨[], c, rest, rfl, ?_⟩
      exact (State_Process d c).2.1.mpr ⟨hd, hc⟩
    · have hd1 : (d.Process c).read_ = 1 := by rw [read_Process]; exact hc
      obtain ⟨m1, c1, m2, hm, hf⟩ := ih (d.Process c) b hd1
        (fun x hx => hbool x (List.mem_cons_of_mem c hx)) hr
      exact ⟨c :: m1, c1, m2, by rw [hm]; rfl, hf⟩

/-- From a detector whose stored sample is 0, a later call can report `STATE_FALLING`
only after some call in between has reported `STATE_RISING`. -/
theorem rising_before_next_falling (mid : List Nat) :
    ∀ (d : DigitalInput) (b : Nat), d.read_ = 0 → (∀ x ∈ mid, x = 0 ∨ x = 1) →
      (d.ProcessAll (mid ++ [b])).State = STATE_FALLING →
      ∃ mid1 c mid2, mid = mid1 ++ c :: mid2 ∧
        (d.ProcessAll (mid1 ++ [c])).State = STATE_RISING := by
  induction mid with
  | nil =>
    intro d b hd _ hr
    have h := (State_Process d b).2.1.mp hr
    omega
  | cons c rest ih =>
    intro d b hd hbool hr
    rcases hbool c (List.mem_cons_self c rest) with hc | hc
    · have hd1 : (d.Process c).read_ = 0 := by rw [read_Process]; exact hc
      obtain ⟨m1, c1, m2, hm, hf⟩ := ih (d.Process c) b hd1
        (fun x hx => hbool x (List.mem_cons_of_mem c hx)) hr
      exact ⟨c :: m1, c1, m2, by rw [hm]; rfl, hf⟩
    · refine ⟨[], c, rest, rfl, ?_⟩
      exact (State_Process d c).1.mpr ⟨hd, hc⟩

/-- The state reported by the last call of a non-empty run is that of one `Process()`
step on the detector reached before it. -/
theorem ProcessAll_split (d : DigitalInput) (earlier : List Nat) (a : Nat) (later : List Nat) :
    d.ProcessAll (earlier ++ a :: later) = (d.ProcessAll (earlier ++ [a])).ProcessAll later := by
  simp [ProcessAll, List.foldl_append]

/-- C17. For every detector state and every run of `Process()` calls reading
`earlier ++ a :: mid ++ [b]` in which the samples of `mid` are boolean: when the call
that read `a` and the call that read `b` both report `STATE_RISING`, some call of `mid`
in between reports `STATE_FALLING`; and when both report `STATE_FALLING`, some call of
`mid` in between reports `STATE_RISING`. -/
theorem edges_alternate (d : DigitalInput) (earlier mid : List Nat) (a b : Nat)
    (hbool : ∀ x ∈ mid, x = 0 ∨ x = 1) :
    ((d.ProcessAll (earlier ++ [a])).State = STATE_RISING →
      (d.ProcessAll (earlier ++ a :: (mid ++ [b]))).State = STATE_RISING →
      ∃ mid1 c mid2, mid = mid1 ++ c :: mid2 ∧
        (d.ProcessAll (earlier ++ a :: (mid1 ++ [c]))).State = STATE_FALLING) ∧
    ((d.ProcessAll (earlier ++ [a])).State = STATE_FALLING →
      (d.ProcessAll (earlier ++ a :: (mid ++ [b]))).State = STATE_FALLING →
      ∃ mid1 c mid2, mid = mid1 ++ c :: mid2 ∧
        (d.ProcessAll (earlier ++ a :: (mid1 ++ [c]))).State = STATE_RISING) := by
  have hsnoc : d.ProcessAll (earlier ++ [a]) = (d.ProcessAll earlier).Process a :=
    ProcessAll_snoc d earlier a
  constructor
  · intro h1 h2
    have ha : (d.ProcessAll (earlier ++ [a])).read_ = 1 := by
      rw [hsnoc] at h1 ⊢
      rw [read_Process]
      exact ((State_Process _ a).1.mp h1).2
    rw [ProcessAll_split] at h2
    obtain ⟨m1, c, m2, hm, hf⟩ := falling_before_next_rising mid _ b ha hbool h2
    refine ⟨m1, c, m2, hm, ?_⟩
    rw [ProcessAll_split]
    exact hf
  · intro h1 h2
    have ha : (d.ProcessAll (earlier ++ [a])).read_ = 0 := by
      rw [hsnoc] at h1 ⊢
      rw [read_Process]
      exact ((State_Process _ a).2.1.mp h1).2
    rw [ProcessAll_split] at h2
    obtain ⟨m1, c, m2, hm, hf⟩ := rising_before_next_falling mid _ b ha hbool h2
    refine ⟨m1, c, m2, hm, ?_⟩
    rw [ProcessAll_split]
    exact hf

/-- Witness for C17: samples 1, 0, 1 on a detector with stored sample 0; the calls
reading the two 1s report `STATE_RISING` and the call in between reports
`STATE_FALLING`. -/
theorem edges_alternate_witness :
    ∃ mid1 c mid2, [0] = mid1 ++ c :: mid2 ∧
      ((DigitalInput.mk 11 0 0 STATE_UNCHANGED false).ProcessAll
        ([] ++ 1 :: (mid1 ++ [c]))).State = STATE_FALLING :=
  (edges_alternate (DigitalInput.mk 11 0 0 STATE_UNCHANGED false) [] [0] 1 1
    (by decide)).1 (by decide) (by decide)

end DigitalInput

/-! ## `High()`, `Low()` and `Update()` (`DigitalOutput`) -/

namespace DigitalOutput

/-- C13. For every output object and board, `Update(HIGH)` yields the same object and
the same board (levels, write log and recorded pin modes) as `High()`, and `Update(LOW)`
the same as `Low()`; in particular the pin levels and `On()` agree. -/
theorem High_Low_eq_Update (o : DigitalOutput) (b : Board) :
    Update o b HIGH = High o b ∧
    Update o b LOW = Low o b ∧
    (Update o b HIGH).2.level = (High o b).2.level ∧
    (Update o b HIGH).2.writes = (High o b).2.writes ∧
    (Update o b HIGH).1.On = (High o b).1.On ∧
    (Update o b LOW).2.level = (Low o b).2.level ∧
    (Update o b LOW).2.writes = (Low o b).2.writes ∧
    (Update o b LOW).1.On = (Low o b).1.On := by
  have hH : Update o b HIGH = High o b := by
    simp [Update, HIGH, LOW]
  have hL : Update o b LOW = Low o b := by
    simp [Update, HIGH, LOW]
  refine ⟨hH, hL, ?_, ?_, ?_, ?_, ?_, ?_⟩
  · rw [hH]
  · rw [hH]
  · rw [hH]
  · rw [hL]
  · rw [hL]
  · rw [hL]

/-- C19. For every output object and board, `Update(state)` with a value that is
neither `HIGH` nor `LOW` returns the object and the board as they were: no
`digitalWrite` is issued, no level changes and `On()` keeps its value. -/
theorem Update_other_value_noop (o : DigitalOutput) (b : Board) (state : Nat)
    (hH : state ≠ HIGH) (hL : state ≠ LOW) :
    Update o b state = (o, b) ∧
    (Update o b state).2.writes = b.writes ∧
    (Update o b state).2.level = b.level ∧
    (Update o b state).1.On = o.On := by
  have h : Update o b state = (o, b) := by
    simp [Update, hH, hL]
  refine ⟨h, ?_, ?_, ?_⟩
  · rw [h]
  · rw [h]
  · rw [h]

/-- Witness for C19: `Update(2)` on output 1 of the default layout while it is on. -/
theorem Update_other_value_noop_witness :
    Update (DigitalOutput.mk 5 14 true) Board.reset 2 = (DigitalOutput.mk 5 14 true, Board.reset) ∧
    (Update (DigitalOutput.mk 5 14 true) Board.reset 2).2.writes = Board.reset.writes ∧
    (Update (DigitalOutput.mk 5 14 true) Board.reset 2).2.level = Board.reset.level ∧
    (Update (DigitalOutput.mk 5 14 true) Board.reset 2).1.On = (DigitalOutput.mk 5 14 true).On :=
  Update_other_value_noop (DigitalOutput.mk 5 14 true) Board.reset 2 (by decide) (by decide)

end DigitalOutput

/-! ## Encoder direction set by `Arythmatik::Init()` -/

namespace Arythmatik

open arythmatik

/-- The encoder after `Init()`. -/
theorem encoder_Init (a : Arythmatik) (b : Board) :
    (Init a b).1.encoder =
      if a.config.ReverseEncoder then a.encoder.setDirection 1 else a.encoder := by
  cases h : a.config.RotatePanel <;> cases h2 : a.config.ReverseEncoder <;>
    simp [Init, InitDisplay, InitOutputs, InitInputs, outputs_Init, clk_Init, rst_Init,
      DigitalInput.Init, DigitalOutput.InitLed, DigitalOutput.Init, h, h2]

/-- The encoder is not changed by `ProcessInputs()` calls. -/
theorem encoder_ProcessInputsAll (rds : List (Nat → Nat)) :
    ∀ ab : Arythmatik × Board, (ProcessInputsAll ab rds).1.encoder = ab.1.encoder := by
  induction rds with
  | nil => intro ab; rfl
  | cons rd rds ih =>
    intro ab
    have h1 := ih (ProcessInputs rd ab)
    have h2 : (ProcessInputs rd ab).1.encoder = ab.1.encoder :=
      (ProcessInputs_effect_aux rd ab.1 ab.2).2.2.1
    exact h1.trans h2

open Encoder.Direction in
/-- C12. For a freshly constructed runtime with any configuration, after `Init()` and
after any number of `ProcessInputs()` calls that follow it, the encoder's reversal flag
is set iff `config.ReverseEncoder` is true: raw value 1 yields
`DIRECTION_INCREMENT` and raw value 2 `DIRECTION_DECREMENT` when
`config.ReverseEncoder` is false, and the other way round when it is true. -/
theorem encoder_direction_after_Init (rot rev : Bool) (outputs : Fin 6 → DigitalOutput)
    (clk rst : DigitalInput) (b : Board) (rds : List (Nat → Nat)) :
    ((ProcessInputsAll (Init (construct ⟨rot, rev⟩ outputs clk rst) b) rds).1.encoder.reversed_
      ≠ 0 ↔ rev = true) ∧
    (ProcessInputsAll (Init (construct ⟨rot, rev⟩ outputs clk rst) b) rds).1.encoder.Rotate 1
      = (if rev then DIRECTION_DECREMENT else DIRECTION_INCREMENT) ∧
    (ProcessInputsAll (Init (construct ⟨rot, rev⟩ outputs clk rst) b) rds).1.encoder.Rotate 2
      = (if rev then DIRECTION_INCREMENT else DIRECTION_DECREMENT) ∧
    (ProcessInputsAll (Init (construct ⟨rot, rev⟩ outputs clk rst) b) rds).1.encoder
      = (Init (construct ⟨rot, rev⟩ outputs clk rst) b).1.encoder := by
  have hk := encoder_ProcessInputsAll rds (Init (construct ⟨rot, rev⟩ outputs clk rst) b)
  have hi := encoder_Init (construct ⟨rot, rev⟩ outputs clk rst) b
  rw [hk, hi]
  cases rev <;>
    simp [construct, Encoder.new, Encoder.setDirection, Encoder.Rotate, Encoder.rotate,
      Encoder.rotate_reversed]

end Arythmatik

/-! ## Press classification (`Encoder`) -/

namespace Encoder

open PressType

/-- The press type as a function of the raw byte that `pushType` returned. -/
theorem Pressed_raw (e : Encoder) (push : Nat → Nat) :
    (e.Pressed push = PRESS_SHORT ↔ push LONG_PRESS_DURATION_MS = 1) ∧
    (e.Pressed push = PRESS_LONG ↔ push LONG_PRESS_DURATION_MS = 2) ∧
    (e.Pressed push = PRESS_NONE ↔
      push LONG_PRESS_DURATION_MS ≠ 1 ∧ push LONG_PRESS_DURATION_MS ≠ 2) := by
  unfold Pressed _press
  generalize push LONG_PRESS_DURATION_MS = p
  match p with
  | 0 => simp
  | 1 => simp
  | 2 => simp
  | n + 3 => simp

/-- C11. With the press-duration primitive as the spec describes it and the threshold
`LONG_PRESS_DURATION_MS = 1000` that `_press()` passes to it, `Pressed()` returns
`PRESS_SHORT` for a release after a hold of 1 to 999 time-units, `PRESS_LONG` for a
release after a hold of 1000 or more time-units, and `PRESS_NONE` when no release
occurred in this call. -/
theorem Pressed_by_hold (e : Encoder) (held : Nat) :
    (1 ≤ held → held ≤ 999 →
      e.Pressed (e.encoder_.pushType (SimpleRotary.ButtonEvent.released held)) = PRESS_SHORT) ∧
    (1000 ≤ held →
      e.Pressed (e.encoder_.pushType (SimpleRotary.ButtonEvent.released held)) = PRESS_LONG) ∧
    e.Pressed (e.encoder_.pushType SimpleRotary.ButtonEvent.noRelease) = PRESS_NONE := by
  refine ⟨?_, ?_, ?_⟩
  · intro _ h2
    have h : held < LONG_PRESS_DURATION_MS := by unfold LONG_PRESS_DURATION_MS; omega
    simp [Pressed, _press, SimpleRotary.pushType, h]
  · intro h1
    have h : ¬ held < LONG_PRESS_DURATION_MS := by unfold LONG_PRESS_DURATION_MS; omega
    simp [Pressed, _press, SimpleRotary.pushType, h]
  · simp [Pressed, _press, SimpleRotary.pushType]

/-- Witness for C11: holds of 1, 999 and 1000 time-units on the constructed encoder. -/
theorem Pressed_by_hold_witness :
    Encoder.new.Pressed (Encoder.new.encoder_.pushType (SimpleRotary.ButtonEvent.released 1))
      = PRESS_SHORT ∧
    Encoder.new.Pressed (Encoder.new.encoder_.pushType (SimpleRotary.ButtonEvent.released 999))
      = PRESS_SHORT ∧
    Encoder.new.Pressed (Encoder.new.encoder_.pushType (SimpleRotary.ButtonEvent.released 1000))
      = PRESS_LONG :=
  ⟨(Pressed_by_hold Encoder.new 1).1 (by decide) (by decide),
   (Pressed_by_hold Encoder.new 999).1 (by decide) (by decide),
   (Pressed_by_hold Encoder.new 1000).2.1 (by decide)⟩

/-- C15. `ShortPressed()` followed by `LongPressed()` in one cycle, each consuming its
own raw sample: on raw samples 2, 0 both return false, while `Pressed()` on the first
sample, the release of a long press, is `PRESS_LONG`; on raw samples 1, 2 both return
true, while `Pressed()` on the first sample is `PRESS_SHORT`. -/
theorem ShortPressed_LongPressed_disagree (e : Encoder) :
    e.ShortPressed_then_LongPressed [2, 0] = (false, false) ∧
    e.Pressed (rawPush 2) = PRESS_LONG ∧
    e.ShortPressed_then_LongPressed [1, 2] = (true, true) ∧
    e.Pressed (rawPush 1) = PRESS_SHORT := by
  refine ⟨?_, ?_, ?_, ?_⟩ <;>
    simp [ShortPressed_then_LongPressed, ShortPressed, LongPressed, Pressed, _press, rawPush]

/-- C16. For every raw byte `p` returned by one `pushType` call: `Pressed()` is
`PRESS_SHORT` iff `p = 1`, `PRESS_LONG` iff `p = 2` and `PRESS_NONE` otherwise;
`ShortPressed()` on that sample is true iff `Pressed()` on it is `PRESS_SHORT`,
`LongPressed()` is true iff it is `PRESS_LONG`, and they are not both true. -/
theorem Pressed_single_sample (e : Encoder) (p : Nat) :
    (e.Pressed (rawPush p) = PRESS_SHORT ↔ p = 1) ∧
    (e.Pressed (rawPush p) = PRESS_LONG ↔ p = 2) ∧
    (e.Pressed (rawPush p) = PRESS_NONE ↔ p ≠ 1 ∧ p ≠ 2) ∧
    (e.ShortPressed (rawPush p) = true ↔ e.Pressed (rawPush p) = PRESS_SHORT) ∧
    (e.LongPressed (rawPush p) = true ↔ e.Pressed (rawPush p) = PRESS_LONG) ∧
    ¬ (e.ShortPressed (rawPush p) = true ∧ e.LongPressed (rawPush p) = true) := by
  have h := Pressed_raw e (rawPush p)
  refine ⟨h.1, h.2.1, h.2.2, ?_, ?_, ?_⟩
  · simp [ShortPressed]
  · simp [LongPressed]
  · simp only [ShortPressed, LongPressed, decide_eq_true_eq]
    intro hc
    rw [hc.1] at hc
    exact absurd hc.2 (by decide)

end Encoder

end modulove
